import Mathlib

/-!
# Verification of Klipper host components against their specification

Shallow embedding of the parts of the Klipper repository referenced by the
claims: the build-time command dictionary generator
(`scripts/buildcommands.py`), stepper enable-pin handling
(`klippy/stepper.py`), the G-code dispatcher (`klippy/gcode.py`) and delta
calibration stable positions (`klippy/extras/delta_calibrate.py`).
Python machine integers are modelled as `Int`/`Nat`; Python floats are
modelled as `ℚ` where only field operations occur and as `ℝ` where `sqrt`
is involved; functions that can raise return `Option`/sum types.
-/

namespace Buildcommands

/-- Modelled from the spec: `MESSAGE_MAX` is defined in `klippy/msgproto.py`
which is not part of the sources here; the spec fixes the wire-format size
bounds to 64 and 5 bytes ("MESSAGE_MAX / MESSAGE_MIN: wire-format size
bounds (64 and 5 bytes respectively)"). -/
def MESSAGE_MAX : Nat := 64

/-- Modelled from the spec: `MESSAGE_MIN` from `klippy/msgproto.py`, fixed
to 5 by the spec's wire-format size bounds. -/
def MESSAGE_MIN : Nat := 5

/-- A parameter type of a message format, as used by `buildcommands.py`:
its class name (e.g. `PT_uint32`) and its `max_length` attribute. -/
structure ParamType where
  typename : String
  max_length : Nat
deriving Repr, DecidableEq

/-- A message format object (`msgproto.MessageFormat` / `OutputFormat`):
name, format string, message id and parameter types. -/
structure MsgFormat where
  name : String
  msgformat : String
  msgid : Nat
  param_types : List ParamType
deriving Repr, DecidableEq

/-- The fields emitted into a generated `command_parser` /
`command_encoder` C structure by `build_parser` in `buildcommands.py`
(the comment and textual layout are elided; the numeric fields are kept). -/
structure CommandFields where
  msg_id : Nat
  num_params : Nat
  num_args : Option Nat
  max_size : Option Nat
deriving Repr, DecidableEq

/-- Embedding of `build_parser(parser, iscmd, all_param_types)` from
`scripts/buildcommands.py` (lines 126-154).  The `all_param_types`
registry maps a tuple of type names to a param id; the function returns
the emitted fields together with the updated registry. -/
def build_parser_fields (p : MsgFormat) (iscmd : Bool)
    (all_param_types : List (List String × Nat)) :
    CommandFields × List (List String × Nat) :=
  let types := p.param_types.map ParamType.typename
  let apt :=
    if types.isEmpty then all_param_types
    else match all_param_types.lookup types with
      | some _ => all_param_types
      | none => all_param_types ++ [(types, all_param_types.length)]
  if iscmd then
    ({ msg_id := p.msgid, num_params := types.length,
       num_args := some (types.length + types.count "PT_progmem_buffer"
                          + types.count "PT_buffer"),
       max_size := none }, apt)
  else
    ({ msg_id := p.msgid, num_params := types.length,
       num_args := none,
       max_size := some (min MESSAGE_MAX
          (MESSAGE_MIN + 1 + (p.param_types.map ParamType.max_length).sum)) },
     apt)

/-- Embedding of the loop of `build_encoders` (lines 156-179): for each
encoder message (deduplicated by msgid via `did_output`), call
`build_parser` with `iscmd = 0` and collect the emitted
`command_encoder` definitions. -/
def build_encoders_defs (encoders : List MsgFormat)
    (did_output : List Nat) (apt : List (List String × Nat)) :
    List CommandFields :=
  match encoders with
  | [] => []
  | p :: rest =>
    if p.msgid ∈ did_output then build_encoders_defs rest did_output apt
    else
      let r := build_parser_fields p false apt
      r.1 :: build_encoders_defs rest (p.msgid :: did_output) r.2

/-- `STATIC_STRING_MIN` from `scripts/buildcommands.py` line 66. -/
def STATIC_STRING_MIN : Nat := 2

/-- `HandleStaticStrings.update_data_dictionary` (lines 76-78): the
static-string table entered into the data dictionary, mapping
`i + STATIC_STRING_MIN` to the `i`-th declared string. -/
def static_strings_dict (strs : List String) : List (Nat × String) :=
  strs.enum.map fun p => (p.1 + STATIC_STRING_MIN, p.2)

/-- Values stored in the data dictionary: msgid-to-string maps, lists of
msgids, string-to-string maps (`config`) and plain strings. -/
inductive DictVal where
  | natMap : List (Nat × String) → DictVal
  | natList : List Nat → DictVal
  | strMap : List (String × String) → DictVal
  | str : String → DictVal
deriving Repr, DecidableEq

/-- Python's `sorted` on a list of msgids. -/
def pySorted (l : List Nat) : List Nat := l.insertionSort (· ≤ ·)

/-- The data dictionary entries added by the three handlers'
`update_data_dictionary` methods: `HandleCallList` adds nothing (line 41),
`HandleStaticStrings` adds `static_strings` (lines 76-78), and
`HandleConstants` adds `config` (lines 114-115). -/
def handlers_update (strs : List String) (consts : List (String × String))
    (data : List (String × DictVal)) : List (String × DictVal) :=
  data ++ [("static_strings", .natMap (static_strings_dict strs)),
           ("config", .strMap consts)]

/-- Embedding of the dictionary constructed by `build_identify`
(lines 245-255): start from the handlers' entries, then add `messages`
(the inversion of `msg_to_id`), `commands` (sorted declared command
msgids), `responses` (sorted), `version` and `build_versions`.  The
resulting dictionary is what `json.dumps` serializes and `zlib.compress`
compresses (lines 258-259). -/
def build_identify_data (strs : List String) (consts : List (String × String))
    (cmd_ids : List Nat) (msg_to_id : List (String × Nat))
    (responses : List Nat) (version toolstr : String) :
    List (String × DictVal) :=
  let messages := msg_to_id.map fun p => (p.2, p.1)
  handlers_update strs consts []
    ++ [("messages", .natMap messages),
        ("commands", .natList (pySorted cmd_ids)),
        ("responses", .natList (pySorted responses)),
        ("version", .str version),
        ("build_versions", .str toolstr)]

/-- The `responses` list computed in `main` (lines 434-435): the msgid of
every message in `messages_by_name` whose name is not a declared
command. -/
def compute_responses (messages_by_name : List (String × String))
    (commands : List String) (msg_to_id : List (String × Nat)) : List Nat :=
  (messages_by_name.filter fun p => !(commands.contains p.1)).map
    fun p => (msg_to_id.lookup p.2).getD 0

end Buildcommands

namespace Stepper

/-- A hardware call made through an MCU digital-out pin:
`mcu_enable.set_digital(print_time, value)`. -/
inductive HWCall where
  | set_digital (print_time : ℚ) (value : Nat)
deriving Repr, DecidableEq

/-- `StepperEnablePin.set_enable(print_time, enable)` from
`klippy/stepper.py` (lines 14-22), acting on the shared `enable_count`
and returning the hardware calls it performs.  On enable the zero test
happens before the increment; on disable after the decrement. -/
def set_enable (enable_count : Int) (print_time : ℚ) (enable : Bool) :
    Int × List HWCall :=
  if enable then
    (enable_count + 1,
     if enable_count = 0 then [.set_digital print_time 1] else [])
  else
    (enable_count - 1,
     if enable_count - 1 = 0 then [.set_digital print_time 0] else [])

/-- Fold a sequence of `set_enable` calls over a pin, collecting the
counter value and all hardware calls in order. -/
def run_set_enable (enable_count : Int) :
    List (ℚ × Bool) → Int × List HWCall
  | [] => (enable_count, [])
  | (t, e) :: rest =>
    let r := set_enable enable_count t e
    let r2 := run_set_enable r.1 rest
    (r2.1, r.2 ++ r2.2)

/-- The hardware-call trace the claim describes: `set_digital 1` exactly
when an enabling call finds the counter at zero, `set_digital 0` exactly
when a disabling call brings the counter to zero, nothing otherwise,
the counter moving by one each call. -/
def claimedCalls (enable_count : Int) :
    List (ℚ × Bool) → List HWCall
  | [] => []
  | (t, e) :: rest =>
    if e then
      (if enable_count = 0 then [HWCall.set_digital t 1] else [])
        ++ claimedCalls (enable_count + 1) rest
    else
      (if enable_count - 1 = 0 then [HWCall.set_digital t 0] else [])
        ++ claimedCalls (enable_count - 1) rest

/-- State of a `PrinterStepper` relevant to `motor_enable`: its own
`need_motor_enable` flag and its (possibly shared) enable pin's counter. -/
structure StepperState where
  need_motor_enable : Bool
  enable_count : Int
deriving Repr, DecidableEq

/-- `PrinterStepper.motor_enable(print_time, enable)` from
`klippy/stepper.py` (lines 75-78): call `set_enable` only when
`need_motor_enable != (not enable)`, then set
`need_motor_enable = not enable`. -/
def motor_enable (st : StepperState) (print_time : ℚ) (enable : Bool) :
    StepperState × List HWCall :=
  if st.need_motor_enable ≠ (!enable) then
    let r := set_enable st.enable_count print_time enable
    ({ need_motor_enable := !enable, enable_count := r.1 }, r.2)
  else
    ({ need_motor_enable := !enable, enable_count := st.enable_count }, [])

end Stepper

namespace GCode

/-- `GCodeParser.RETRY_TIME` (`klippy/gcode.py` line 11). -/
def RETRY_TIME : ℚ := 1/10

/-- A four-axis position `[x, y, z, e]` as used by `base_position`,
`last_position` and `homing_add`. -/
structure Pos4 where
  x : ℚ
  y : ℚ
  z : ℚ
  e : ℚ
deriving Repr, DecidableEq

/-- The axis words of a G0/G1 command: the optional `X`/`Y`/`Z`/`E`
values and the optional `F` feedrate. -/
structure MoveParams where
  px : Option ℚ
  py : Option ℚ
  pz : Option ℚ
  pe : Option ℚ
  pf : Option ℚ
deriving Repr, DecidableEq

/-- The parser state of `GCodeParser` touched by `cmd_G1`. -/
structure GCodeState where
  absolutecoord : Bool
  absoluteextrude : Bool
  speed : ℚ
  base_position : Pos4
  last_position : Pos4
  homing_add : Pos4
deriving Repr, DecidableEq

/-- The toolhead as observed by `cmd_G1`: whether `toolhead.move` raises
`homing.EndstopError` (with its message), and the value
`toolhead.get_position()` returns. -/
structure Toolhead where
  move_raises : Option String
  position : Pos4
deriving Repr, DecidableEq

/-- One axis of the position update loop in `cmd_G1` (lines 215-223):
absent parameter keeps the axis, a relative value adds to
`last_position`, an absolute value adds to `base_position`. -/
def axis_target (relative : Bool) (last base : ℚ) : Option ℚ → ℚ
  | none => last
  | some v => if relative then last + v else v + base

/-- The new `last_position` computed by `cmd_G1` from the command
parameters; the extruder axis is relative when either `absolutecoord` or
`absoluteextrude` is unset (`p > 2 and not self.absoluteextrude`). -/
def g1_target (st : GCodeState) (p : MoveParams) : Pos4 :=
  { x := axis_target (!st.absolutecoord) st.last_position.x st.base_position.x p.px,
    y := axis_target (!st.absolutecoord) st.last_position.y st.base_position.y p.py,
    z := axis_target (!st.absolutecoord) st.last_position.z st.base_position.z p.pz,
    e := axis_target (!st.absolutecoord || !st.absoluteextrude)
           st.last_position.e st.base_position.e p.pe }

/-- Embedding of `GCodeParser.cmd_G1` (lines 213-230): update
`last_position` from the parameters, update `speed` from `F`, call
`toolhead.move`; if it raises an endstop error, respond with the error
and resync `last_position` from `toolhead.get_position()`.  The second
component is the list of `respond` outputs. -/
def cmd_G1 (st : GCodeState) (p : MoveParams) (th : Toolhead) :
    GCodeState × List String :=
  let st1 : GCodeState :=
    { st with last_position := g1_target st p,
              speed := match p.pf with
                | some f => f / 60
                | none => st.speed }
  match th.move_raises with
  | some msg => ({ st1 with last_position := th.position }, ["Error: " ++ msg])
  | none => (st1, [])

/-- Observable actions performed by `busy_handler`. -/
inductive Event where
  | respond (msg : String)
  | force_shutdown
  | reset_motor_off_time (t : ℚ)
  | clear_busy_state
  | ack
  | process_commands
  | register_fd
deriving Repr, DecidableEq

/-- Outcome of `self.busy_state.check_busy(eventtime)`: a boolean, or an
`EndstopError`, or any other exception. -/
inductive CheckBusyResult where
  | busy
  | notBusy
  | endstopError (msg : String)
  | otherError
deriving Repr, DecidableEq

/-- Return value of a reactor timer callback: a concrete next event
time, `reactor.NOW`, or `reactor.NEVER`. -/
inductive TimerRet where
  | time (t : ℚ)
  | now
  | never
deriving Repr, DecidableEq

/-- Embedding of `GCodeParser.busy_handler` (lines 147-169).  The effects
of `self.process_commands(eventtime)` are summarized by two oracle
inputs: whether `busy_state` is set again afterwards and whether
`need_register_fd` was pending. -/
def busy_handler (eventtime : ℚ) (check : CheckBusyResult)
    (busy_after_process : Bool) (need_register_fd : Bool) :
    List Event × TimerRet :=
  let pre : List Event × Bool :=
    match check with
    | .busy => ([], true)
    | .notBusy => ([], false)
    | .endstopError msg => ([.respond ("Error: " ++ msg)], false)
    | .otherError =>
        ([.force_shutdown, .respond "Error: Internal error in busy handler"],
         false)
  if pre.2 then
    (pre.1 ++ [.reset_motor_off_time eventtime],
     .time (eventtime + RETRY_TIME))
  else
    (pre.1 ++ [.clear_busy_state, .ack, .process_commands]
       ++ (if busy_after_process then []
           else if need_register_fd then [.register_fd] else []),
     if busy_after_process then .now else .never)

/-- The commands kept after shutdown (`build_handlers` line 47). -/
def shutdown_handlers : List String := ["M105", "M110", "M114"]

/-- Embedding of `GCodeParser.build_handlers` (lines 46-59): the base
command list, extended by heater/fan commands when those objects exist,
filtered down to `shutdown_handlers` when `is_shutdown` is set. -/
def build_handlers (has_nozzle has_bed has_fan is_shutdown : Bool) :
    List String :=
  let handlers :=
    ["G0", "G1", "G4", "G20", "G21", "G28", "G90", "G91", "G92",
     "M18", "M82", "M83", "M84", "M110", "M114", "M119", "M206"]
    ++ (if has_nozzle then ["M104", "M105", "M109", "M303"] else [])
    ++ (if has_bed then ["M140", "M190"] else [])
    ++ (if has_fan then ["M106", "M107"] else [])
  if is_shutdown then handlers.filter (fun h => shutdown_handlers.contains h)
  else handlers

/-- The dispatch of `process_commands` (line 100):
`self.gcode_handlers.get(cmd, self.cmd_default)`, naming which handler
runs for a command. -/
def lookup_handler (handlers : List String) (cmd : String) : String :=
  if handlers.contains cmd then cmd else "cmd_default"

/-- Embedding of `GCodeParser.cmd_default` (lines 202-210): when shut
down, respond with the shutdown error and do nothing else; otherwise log
empty commands or echo unknown ones.  The state is returned unchanged in
every branch because `cmd_default` writes no parser state. -/
def cmd_default (is_shutdown : Bool) (cmd : Option String)
    (st : GCodeState) : GCodeState × List String :=
  if is_shutdown then (st, ["Error: Machine is shutdown"])
  else
    match cmd with
    | none => (st, [])
    | some c => (st, ["echo:Unknown command:\"" ++ c ++ "\""])

end GCode

namespace Delta

/-- Python's `int()` applied to a float: truncation toward zero. -/
noncomputable def pyInt (x : ℝ) : ℤ := if 0 ≤ x then ⌊x⌋ else ⌈x⌉

/-- The delta configuration parameters dictionary consumed by
`build_delta_params` (`klippy/extras/delta_calibrate.py` lines 25-40). -/
structure DeltaConfig where
  radius : ℝ
  angle_a : ℝ
  angle_b : ℝ
  angle_c : ℝ
  arm_a : ℝ
  arm_b : ℝ
  arm_c : ℝ
  endstop_a : ℝ
  endstop_b : ℝ
  endstop_c : ℝ
  stepdist_a : ℝ
  stepdist_b : ℝ
  stepdist_c : ℝ

/-- The `DeltaParams` namedtuple. -/
structure DeltaParams where
  radius : ℝ
  angles : List ℝ
  arms : List ℝ
  endstops : List ℝ
  stepdists : List ℝ
  towers : List (ℝ × ℝ)
  abs_endstops : List ℝ

/-- Embedding of `build_delta_params` (lines 25-40): tower XY positions
from the angles and radius, and the absolute Z height of each tower
endstop `e + sqrt(arm^2 - radius^2)`. -/
noncomputable def build_delta_params (p : DeltaConfig) : DeltaParams :=
  let radius := p.radius
  let angles := [p.angle_a, p.angle_b, p.angle_c]
  let arms := [p.arm_a, p.arm_b, p.arm_c]
  let endstops := [p.endstop_a, p.endstop_b, p.endstop_c]
  let stepdists := [p.stepdist_a, p.stepdist_b, p.stepdist_c]
  let radian_angles := angles.map fun a => a * Real.pi / 180
  let towers := radian_angles.map fun a =>
    (Real.cos a * radius, Real.sin a * radius)
  let radius2 := radius ^ 2
  let abs_endstops := (endstops.zip arms).map fun q =>
    q.1 + Real.sqrt (q.2 ^ 2 - radius2)
  { radius := radius, angles := angles, arms := arms, endstops := endstops,
    stepdists := stepdists, towers := towers, abs_endstops := abs_endstops }

/-- Embedding of `get_stable_position` (lines 53-57):
`int((ep - sp) / sd + .5)` for each zipped
(stepdist, absolute endstop, stepper position) triple. -/
noncomputable def get_stable_position (stepper_position : List ℝ)
    (dp : DeltaParams) : List ℤ :=
  (dp.stepdists.zip (dp.abs_endstops.zip stepper_position)).map fun t =>
    pyInt ((t.2.1 - t.2.2) / t.1 + 1/2)

end Delta

namespace StablePos

/-- The decimal digit character for `d`. -/
def digitChar (d : Nat) : Char := Char.ofNat (48 + d)

/-- Numeric value of a digit character. -/
def digitVal (c : Char) : Nat := c.toNat - 48

/-- Value of a big-endian list of digit characters. -/
def digitsVal (cs : List Char) : Nat :=
  cs.foldl (fun acc c => 10 * acc + digitVal c) 0

/-- Decimal digit characters of a natural number, most significant
first (empty for 0). -/
def natChars (n : Nat) : List Char := ((Nat.digits 10 n).map digitChar).reverse

/-- Python's `"%d" % z` for an integer `z`. -/
def pyFormatD (z : Int) : List Char :=
  if z < 0 then '-' :: natChars z.natAbs
  else if z = 0 then ['0']
  else natChars z.natAbs

/-- The `"%d,%d,%d" % tuple(spos)` string written by
`DeltaCalibrate.save_state` (lines 119-120) for a stable position. -/
def save_height_pos (a b c : Int) : List Char :=
  pyFormatD a ++ ',' :: (pyFormatD b ++ ',' :: pyFormatD c)

/-- Consume an optional leading sign, returning the sign factor and the
remaining characters. -/
def signSplit (cs : List Char) : ℚ × List Char :=
  match cs with
  | [] => (1, [])
  | c :: r =>
    if c = '-' then (-1, r)
    else if c = '+' then (1, r)
    else (1, c :: r)

/-- Modelled from the spec: Python's `float()` builtin is not among the
sources; the spec only calls the stored fields "three comma-separated
numbers", so `float()` is modelled on decimal numerals: an optional
sign, integer digits and an optional fractional part, with at least one
digit; anything else fails. -/
def pyFloatParse (cs : List Char) : Option ℚ :=
  let sr := signSplit cs
  let ip := sr.2.takeWhile Char.isDigit
  let rest := sr.2.dropWhile Char.isDigit
  match rest with
  | [] => if ip.isEmpty then none else some (sr.1 * digitsVal ip)
  | '.' :: fp =>
    if fp.all Char.isDigit && !(ip.isEmpty && fp.isEmpty) then
      some (sr.1 * ((digitsVal ip : ℚ) + digitsVal fp / 10 ^ fp.length))
    else none
  | _ => none

/-- Python's `str.split(',')`: split at every comma, keeping empty
pieces; the empty string yields one empty piece. -/
def splitComma : List Char → List (List Char)
  | [] => [[]]
  | c :: rest =>
    let r := splitComma rest
    if c = ',' then [] :: r
    else (c :: r.headI) :: r.tail

/-- The tuple unpacking `sa, sb, sc = map(float, ...)`: succeeds exactly
on a list of three parsed values. -/
def unpack3 (L : List (Option ℚ)) : Option (ℚ × ℚ × ℚ) :=
  match L with
  | [some a, some b, some c] => some (a, b, c)
  | _ => none

/-- Embedding of `load_config_stable` (lines 60-68) applied to the raw
config string: split on commas, parse each part as a float, and unpack
exactly three values; `none` models raising `config.error`. -/
def load_config_stable (s : List Char) : Option (ℚ × ℚ × ℚ) :=
  unpack3 ((splitComma s).map pyFloatParse)

end StablePos

/-! ## Theorems -/

/-- C3: For every `StepperEnablePin` and every sequence of `set_enable`
calls, the hardware call `mcu_enable.set_digital` is made exactly at the
transitions the claim describes: `set_digital(print_time, 1)` exactly when
an enabling call finds `enable_count == 0`, `set_digital(print_time, 0)`
exactly when a disabling call brings `enable_count` to 0, and every call
moves the counter by exactly one. -/
theorem set_enable_hw_transitions (enable_count : Int)
    (calls : List (ℚ × Bool)) :
    (Stepper.run_set_enable enable_count calls).2
      = Stepper.claimedCalls enable_count calls
    ∧ ∀ c : Int, ∀ t : ℚ, ∀ e : Bool,
        (Stepper.set_enable c t e).1 = if e then c + 1 else c - 1 := by
  constructor
  · induction calls generalizing enable_count with
    | nil => rfl
    | cons head tail ih =>
      obtain ⟨t, e⟩ := head
      by_cases he : e <;>
        simp [Stepper.run_set_enable, Stepper.claimedCalls,
              Stepper.set_enable, he, ih]
  · intro c t e
    by_cases he : e <;> simp [Stepper.set_enable, he]

/-- C9: `PrinterStepper.motor_enable` is idempotent with respect to the
shared enable pin: when `need_motor_enable` already equals `not enable`,
the stepper state (including the pin's `enable_count`) is unchanged and
no hardware call is made. -/
theorem motor_enable_idempotent (st : Stepper.StepperState) (t : ℚ)
    (e : Bool) (h : st.need_motor_enable = !e) :
    Stepper.motor_enable st t e = (st, []) := by
  cases st
  simp_all [Stepper.motor_enable]

/-- Witness for C9 at a concrete state: the stepper already disabled,
`motor_enable` called with enable = false. -/
theorem motor_enable_idempotent_witness :
    (⟨true, 5⟩ : Stepper.StepperState).need_motor_enable = !false
    ∧ Stepper.motor_enable ⟨true, 5⟩ 0 false = (⟨true, 5⟩, []) :=
  ⟨rfl, motor_enable_idempotent ⟨true, 5⟩ 0 false rfl⟩

/-- C4: for every delta configuration and stepper-position triple,
`get_stable_position` composed with `build_delta_params` yields per tower
`int((abs_endstop - stepper_position) / stepdist + 0.5)` with
`abs_endstop = endstop + sqrt(arm^2 - radius^2)`. -/
theorem get_stable_position_formula (p : Delta.DeltaConfig) (s1 s2 s3 : ℝ) :
    Delta.get_stable_position [s1, s2, s3] (Delta.build_delta_params p)
      = [Delta.pyInt ((p.endstop_a + Real.sqrt (p.arm_a ^ 2 - p.radius ^ 2)
            - s1) / p.stepdist_a + 1/2),
         Delta.pyInt ((p.endstop_b + Real.sqrt (p.arm_b ^ 2 - p.radius ^ 2)
            - s2) / p.stepdist_b + 1/2),
         Delta.pyInt ((p.endstop_c + Real.sqrt (p.arm_c ^ 2 - p.radius ^ 2)
            - s3) / p.stepdist_c + 1/2)] := by
  simp [Delta.get_stable_position, Delta.build_delta_params]

/-- C6: the static-string table maps the `i`-th declared string to id
`i + STATIC_STRING_MIN` with `STATIC_STRING_MIN = 2`: the assigned ids
are exactly the consecutive range starting at 2 (hence unique and all at
least 2), and the data dictionary's `static_strings` entry holds exactly
the pair `(i + 2, i-th string)` at each index. -/
theorem static_string_table (strs : List String) :
    Buildcommands.STATIC_STRING_MIN = 2
    ∧ (Buildcommands.static_strings_dict strs).map Prod.fst
        = List.range' Buildcommands.STATIC_STRING_MIN strs.length
    ∧ ∀ i : Nat, (Buildcommands.static_strings_dict strs).get? i
        = (strs.get? i).map fun s => (i + Buildcommands.STATIC_STRING_MIN, s) := by
  refine ⟨rfl, ?_, ?_⟩
  · simp only [Buildcommands.static_strings_dict, List.map_map]
    have : (Prod.fst ∘ fun p : Nat × String =>
        (p.1 + Buildcommands.STATIC_STRING_MIN, p.2))
        = (fun p : Nat × String => p.1 + Buildcommands.STATIC_STRING_MIN) := rfl
    rw [this, List.range'_eq_map_range]
    have h2 : (fun p : Nat × String => p.1 + Buildcommands.STATIC_STRING_MIN)
        = (fun n => n + Buildcommands.STATIC_STRING_MIN) ∘ Prod.fst := rfl
    rw [h2, ← List.map_map, List.enum_map_fst]
    simp [add_comm]
  · intro i
    simp [Buildcommands.static_strings_dict, List.get?_eq_getElem?,
          List.getElem?_map, List.getElem?_enum]
    cases strs[i]? <;> simp

/-- C7: `busy_handler` schedules its own polling from `check_busy`: when
busy it resets the toolhead motor-off time and returns
`eventtime + RETRY_TIME` (0.100 s); when not busy, or when `check_busy`
raises an endstop error (after responding with the error), it clears
`busy_state`, sends the pending ack and resumes `process_commands`. -/
theorem busy_handler_schedule (t : ℚ) (bap nrf : Bool) :
    GCode.RETRY_TIME = 1/10
    ∧ GCode.busy_handler t .busy bap nrf
        = ([.reset_motor_off_time t], .time (t + GCode.RETRY_TIME))
    ∧ GCode.busy_handler t .notBusy bap nrf
        = ([.clear_busy_state, .ack, .process_commands]
             ++ (if bap then [] else if nrf then [.register_fd] else []),
           if bap then .now else .never)
    ∧ ∀ msg, GCode.busy_handler t (.endstopError msg) bap nrf
        = (GCode.Event.respond ("Error: " ++ msg)
             :: [.clear_busy_state, .ack, .process_commands]
             ++ (if bap then [] else if nrf then [.register_fd] else []),
           if bap then .now else .never) :=
  ⟨rfl, rfl, rfl, fun _ => rfl⟩

/-- C8: after `shutdown()` rebuilds the handler table, it contains at most
M105, M110 and M114; every command outside the table dispatches to
`cmd_default`, and `cmd_default` in the shutdown state responds
`Error: Machine is shutdown` and changes nothing else. -/
theorem shutdown_handler_table (hn hb hf : Bool) :
    (∀ h ∈ GCode.build_handlers hn hb hf true, h ∈ GCode.shutdown_handlers)
    ∧ (∀ cmd, cmd ∉ GCode.build_handlers hn hb hf true →
        GCode.lookup_handler (GCode.build_handlers hn hb hf true) cmd
          = "cmd_default")
    ∧ (∀ cmd st, GCode.cmd_default true cmd st
        = (st, ["Error: Machine is shutdown"])) := by
  refine ⟨?_, ?_, fun cmd st => rfl⟩
  · intro h hmem
    have hm := hmem
    simp [GCode.build_handlers] at hm
    exact hm.2
  · intro cmd hncmd
    simp [GCode.lookup_handler, hncmd]

/-- Witness for C8: with all optional printer objects present, `M104` is
not in the shutdown handler table and dispatches to `cmd_default`. -/
theorem shutdown_handler_table_witness :
    ("M104" ∉ GCode.build_handlers true true true true)
    ∧ GCode.lookup_handler (GCode.build_handlers true true true true) "M104"
        = "cmd_default" :=
  ⟨by decide, (shutdown_handler_table true true true).2.1 "M104" (by decide)⟩

/-- C1: every `command_encoder` emitted by the `build_encoders` loop
(which always calls `build_parser` with `iscmd = 0`) carries
`max_size = min(MESSAGE_MAX, MESSAGE_MIN + 1 + sum of the parameter
types' max_length values)` for the encoder message it came from. -/
theorem encoder_max_size (encoders : List Buildcommands.MsgFormat)
    (did : List Nat) (apt : List (List String × Nat))
    (f : Buildcommands.CommandFields)
    (hf : f ∈ Buildcommands.build_encoders_defs encoders did apt) :
    ∃ p ∈ encoders, f.msg_id = p.msgid
      ∧ f.max_size = some (min Buildcommands.MESSAGE_MAX
          (Buildcommands.MESSAGE_MIN + 1
            + (p.param_types.map Buildcommands.ParamType.max_length).sum)) := by
  induction encoders generalizing did apt with
  | nil => simp [Buildcommands.build_encoders_defs] at hf
  | cons p rest ih =>
    rw [Buildcommands.build_encoders_defs] at hf
    by_cases hmem : p.msgid ∈ did
    · rw [if_pos hmem] at hf
      obtain ⟨q, hq, hprop⟩ := ih _ _ hf
      exact ⟨q, List.mem_cons_of_mem _ hq, hprop⟩
    · rw [if_neg hmem] at hf
      rcases List.mem_cons.1 hf with rfl | hf'
      · refine ⟨p, List.mem_cons_self _ _, ?_, ?_⟩ <;>
          simp [Buildcommands.build_parser_fields]
      · obtain ⟨q, hq, hprop⟩ := ih _ _ hf'
        exact ⟨q, List.mem_cons_of_mem _ hq, hprop⟩

/-- Witness for C1: a single encoder with one 5-byte parameter type
yields a `command_encoder` with `max_size = min(64, 5 + 1 + 5) = 11`. -/
theorem encoder_max_size_witness :
    ({ msg_id := 7, num_params := 1, num_args := none, max_size := some 11 }
        : Buildcommands.CommandFields)
      ∈ Buildcommands.build_encoders_defs
          [{ name := "m1", msgformat := "m1 oid=%c", msgid := 7,
             param_types := [{ typename := "PT_uint32", max_length := 5 }] }]
          ([] : List Nat) ([] : List (List String × Nat))
    ∧ ∃ p ∈ [({ name := "m1", msgformat := "m1 oid=%c", msgid := 7,
                param_types := [{ typename := "PT_uint32", max_length := 5 }] }
            : Buildcommands.MsgFormat)],
        ({ msg_id := 7, num_params := 1, num_args := none, max_size := some 11 }
            : Buildcommands.CommandFields).msg_id = p.msgid
        ∧ ({ msg_id := 7, num_params := 1, num_args := none,
              max_size := some 11 } : Buildcommands.CommandFields).max_size
          = some (min Buildcommands.MESSAGE_MAX
              (Buildcommands.MESSAGE_MIN + 1
                + (p.param_types.map Buildcommands.ParamType.max_length).sum)) := by
  constructor
  · decide
  · exact encoder_max_size _ ([] : List Nat) ([] : List (List String × Nat)) _
      (by decide)

/-- C5 counterexample: the claim says an endstop error leaves
`base_position` and the other parser state unchanged, but a G1 carrying
an `F` word updates `speed` before the move is attempted, so after an
endstop error the speed differs from its pre-command value (here 2
instead of 1). -/
theorem g1_endstop_speed_changed :
    (GCode.cmd_G1
        { absolutecoord := true, absoluteextrude := true, speed := 1,
          base_position := ⟨0, 0, 0, 0⟩, last_position := ⟨0, 0, 0, 0⟩,
          homing_add := ⟨0, 0, 0, 0⟩ }
        { px := none, py := none, pz := none, pe := none, pf := some 120 }
        { move_raises := some "Move out of range", position := ⟨1, 2, 3, 4⟩ }
      ).1.speed = 2
    ∧ (2 : ℚ) ≠ 1 := by
  constructor
  · norm_num [GCode.cmd_G1]
  · norm_num

/-- C5 (amended): if `toolhead.move` raises an endstop error, `cmd_G1`
responds with the error message and resyncs `last_position` from
`toolhead.get_position()`, leaving `base_position` and the rest of the
parser state unchanged except `speed`, which an `F` parameter updates
before the move in the raising and non-raising cases alike; without an
error, `last_position` keeps the value computed from the parameters. -/
theorem g1_endstop_resync (st : GCode.GCodeState) (p : GCode.MoveParams)
    (th : GCode.Toolhead) :
    (∀ msg, th.move_raises = some msg →
      GCode.cmd_G1 st p th
        = ({ st with last_position := th.position,
                     speed := match p.pf with
                       | some f => f / 60
                       | none => st.speed },
           ["Error: " ++ msg]))
    ∧ (th.move_raises = none →
      GCode.cmd_G1 st p th
        = ({ st with last_position := GCode.g1_target st p,
                     speed := match p.pf with
                       | some f => f / 60
                       | none => st.speed },
           [])) := by
  constructor
  · intro msg h
    simp [GCode.cmd_G1, h]
  · intro h
    simp [GCode.cmd_G1, h]

/-- Witness for C5 at a concrete raising move: the response is the error
message and `last_position` becomes the toolhead's stopped position. -/
theorem g1_endstop_resync_witness :
    GCode.cmd_G1
        { absolutecoord := true, absoluteextrude := true, speed := 1,
          base_position := ⟨0, 0, 0, 0⟩, last_position := ⟨0, 0, 0, 0⟩,
          homing_add := ⟨0, 0, 0, 0⟩ }
        { px := some 9, py := none, pz := none, pe := none, pf := none }
        { move_raises := some "Move out of range", position := ⟨1, 2, 3, 4⟩ }
      = ({ absolutecoord := true, absoluteextrude := true, speed := 1,
           base_position := ⟨0, 0, 0, 0⟩, last_position := ⟨1, 2, 3, 4⟩,
           homing_add := ⟨0, 0, 0, 0⟩ },
         ["Error: Move out of range"]) :=
  (g1_endstop_resync _ _ _).1 "Move out of range" rfl

/-- Inverting an association list with distinct values: looking up a
pair's value in the swapped list returns its key. -/
theorem lookup_swap_of_nodup {l : List (String × Nat)}
    (hnd : (l.map Prod.snd).Nodup) {p : String × Nat} (hp : p ∈ l) :
    (l.map fun q => (q.2, q.1)).lookup p.2 = some p.1 := by
  induction l with
  | nil => simp at hp
  | cons q rest ih =>
    rw [List.map_cons, List.nodup_cons] at hnd
    rcases List.mem_cons.1 hp with rfl | hp'
    · simp [List.lookup]
    · have hne : p.2 ≠ q.2 := by
        intro he
        exact hnd.1 (he ▸ List.mem_map_of_mem Prod.snd hp')
      have hbeq : (p.2 == q.2) = false := by
        simp [hne]
      simpa [List.lookup, hbeq] using ih hnd.2 hp'

/-- C2: the JSON object fed to `zlib.compress` by `build_identify` has
exactly the keys static_strings, config, messages, commands, responses,
version and build_versions; `messages` inverts `msg_to_id` (so each
msgid maps to its format string when msgids are unique); `commands` is
the sorted list of declared command msgids; and `responses` is the
sorted list of msgids of the messages whose name is not a declared
command. -/
theorem identify_dictionary (strs : List String)
    (consts : List (String × String)) (cmd_ids : List Nat)
    (msg_to_id : List (String × Nat)) (mbn : List (String × String))
    (cmds : List String) (version toolstr : String)
    (hnd : (msg_to_id.map Prod.snd).Nodup) :
    (Buildcommands.build_identify_data strs consts cmd_ids msg_to_id
        (Buildcommands.compute_responses mbn cmds msg_to_id) version
        toolstr).map Prod.fst
      = ["static_strings", "config", "messages", "commands", "responses",
         "version", "build_versions"]
    ∧ (Buildcommands.build_identify_data strs consts cmd_ids msg_to_id
        (Buildcommands.compute_responses mbn cmds msg_to_id) version
        toolstr).lookup "messages"
      = some (.natMap (msg_to_id.map fun p => (p.2, p.1)))
    ∧ (∀ p ∈ msg_to_id,
        (msg_to_id.map fun q => (q.2, q.1)).lookup p.2 = some p.1)
    ∧ (Buildcommands.build_identify_data strs consts cmd_ids msg_to_id
        (Buildcommands.compute_responses mbn cmds msg_to_id) version
        toolstr).lookup "commands"
      = some (.natList (Buildcommands.pySorted cmd_ids))
    ∧ (Buildcommands.pySorted cmd_ids).Sorted (· ≤ ·)
    ∧ (Buildcommands.pySorted cmd_ids).Perm cmd_ids
    ∧ (Buildcommands.build_identify_data strs consts cmd_ids msg_to_id
        (Buildcommands.compute_responses mbn cmds msg_to_id) version
        toolstr).lookup "responses"
      = some (.natList (Buildcommands.pySorted
          (Buildcommands.compute_responses mbn cmds msg_to_id)))
    ∧ (Buildcommands.pySorted
        (Buildcommands.compute_responses mbn cmds msg_to_id)).Sorted (· ≤ ·)
    ∧ ∀ n : Nat,
        n ∈ Buildcommands.pySorted
          (Buildcommands.compute_responses mbn cmds msg_to_id)
        ↔ ∃ q ∈ mbn, q.1 ∉ cmds ∧ (msg_to_id.lookup q.2).getD 0 = n := by
  refine ⟨?_, ?_, fun p hp => lookup_swap_of_nodup hnd hp, ?_,
    List.sorted_insertionSort _ _, List.perm_insertionSort _ _, ?_,
    List.sorted_insertionSort _ _, ?_⟩
  · simp [Buildcommands.build_identify_data, Buildcommands.handlers_update]
  · simp [Buildcommands.build_identify_data, Buildcommands.handlers_update,
          List.lookup]
  · simp [Buildcommands.build_identify_data, Buildcommands.handlers_update,
          List.lookup]
  · simp [Buildcommands.build_identify_data, Buildcommands.handlers_update,
          List.lookup]
  · intro n
    simp only [Buildcommands.pySorted]
    rw [(List.perm_insertionSort _ _).mem_iff]
    simp only [Buildcommands.compute_responses, List.mem_map,
      List.mem_filter, Bool.not_eq_true']
    constructor
    · rintro ⟨q, ⟨hq, hc⟩, hv⟩
      exact ⟨q, hq, by simpa using hc, hv⟩
    · rintro ⟨q, hq, hc, hv⟩
      exact ⟨q, ⟨hq, by simpa using hc⟩, hv⟩

/-- Witness for C2 on a concrete build: two messages, one declared
command; the dictionary's key list is exactly the seven claimed keys. -/
theorem identify_dictionary_witness :
    (([("ping", 3), ("pong", 4)] : List (String × Nat)).map Prod.snd).Nodup
    ∧ (Buildcommands.build_identify_data ["s0"] [("CLOCK_FREQ", "16000000")]
        [5, 3] [("ping", 3), ("pong", 4)]
        (Buildcommands.compute_responses [("ping", "ping"), ("pong", "pong")]
          ["ping"] [("ping", 3), ("pong", 4)]) "v1" "gcc 4.8").map Prod.fst
      = ["static_strings", "config", "messages", "commands", "responses",
         "version", "build_versions"] := by
  constructor
  · decide
  · exact (identify_dictionary ["s0"] [("CLOCK_FREQ", "16000000")] [5, 3]
      [("ping", 3), ("pong", 4)] [("ping", "ping"), ("pong", "pong")]
      ["ping"] "v1" "gcc 4.8" (by decide)).1

/-- Digit characters are recognized by `Char.isDigit`. -/
theorem digitChar_isDigit {d : Nat} (hd : d < 10) :
    (StablePos.digitChar d).isDigit = true := by
  interval_cases d <;> decide

/-- `digitVal` inverts `digitChar` on digits. -/
theorem digitVal_digitChar {d : Nat} (hd : d < 10) :
    StablePos.digitVal (StablePos.digitChar d) = d := by
  interval_cases d <;> decide

/-- A digit character is not a comma. -/
theorem digitChar_ne_comma {d : Nat} (hd : d < 10) :
    StablePos.digitChar d ≠ ',' := by
  interval_cases d <;> decide

/-- Every character of `natChars n` is a digit character. -/
theorem mem_natChars {n : Nat} {c : Char} (hc : c ∈ StablePos.natChars n) :
    ∃ d, d < 10 ∧ c = StablePos.digitChar d := by
  simp [StablePos.natChars] at hc
  obtain ⟨d, hd, rfl⟩ := hc
  exact ⟨d, Nat.digits_lt_base (by norm_num) hd, rfl⟩

/-- All characters of `natChars n` satisfy `Char.isDigit`. -/
theorem natChars_all_digit {n : Nat} :
    ∀ c ∈ StablePos.natChars n, c.isDigit = true := by
  intro c hc
  obtain ⟨d, hd, rfl⟩ := mem_natChars hc
  exact digitChar_isDigit hd

/-- No character of `natChars n` is a comma. -/
theorem natChars_ne_comma {n : Nat} :
    ∀ c ∈ StablePos.natChars n, c ≠ ',' := by
  intro c hc
  obtain ⟨d, hd, rfl⟩ := mem_natChars hc
  exact digitChar_ne_comma hd

/-- Folding the digit-value accumulator over in-range digits agrees with
`Nat.ofDigits`. -/
theorem foldr_ofDigits (L : List Nat) (h : ∀ d ∈ L, d < 10) :
    L.foldr (fun d acc =>
        10 * acc + StablePos.digitVal (StablePos.digitChar d)) 0
      = Nat.ofDigits 10 L := by
  induction L with
  | nil => simp [Nat.ofDigits]
  | cons d L ih =>
    rw [List.foldr_cons, ih (fun x hx => h x (List.mem_cons_of_mem _ hx)),
        digitVal_digitChar (h d (List.mem_cons_self _ _)), Nat.ofDigits_cons]
    ring

/-- Reading back the decimal characters of `n` yields `n`. -/
theorem digitsVal_natChars (n : Nat) :
    StablePos.digitsVal (StablePos.natChars n) = n := by
  unfold StablePos.digitsVal StablePos.natChars
  rw [List.foldl_reverse, List.foldr_map,
      foldr_ofDigits _ (fun d hd => Nat.digits_lt_base (by norm_num) hd),
      Nat.ofDigits_digits]

/-- `signSplit` consumes nothing when the string starts with a digit. -/
theorem signSplit_digit {c : Char} (cs : List Char) (h : c.isDigit = true) :
    StablePos.signSplit (c :: cs) = (1, c :: cs) := by
  have h1 : c ≠ '-' := fun he => by
    rw [he] at h
    exact absurd h (by decide)
  have h2 : c ≠ '+' := fun he => by
    rw [he] at h
    exact absurd h (by decide)
  simp [StablePos.signSplit, h1, h2]

/-- The character list of a positive number is all digits: its takeWhile
and dropWhile under `Char.isDigit`, and its emptiness test. -/
theorem parse_natChars_core (n : Nat) (hn : n ≠ 0) :
    (StablePos.natChars n).takeWhile Char.isDigit = StablePos.natChars n
    ∧ (StablePos.natChars n).dropWhile Char.isDigit = []
    ∧ (StablePos.natChars n).isEmpty = false := by
  refine ⟨?_, ?_, ?_⟩
  · rw [List.takeWhile_eq_self_iff]
    exact natChars_all_digit
  · rw [List.dropWhile_eq_nil_iff]
    exact natChars_all_digit
  · have hne : StablePos.natChars n ≠ [] := by
      simp [StablePos.natChars, Nat.digits_ne_nil_iff_ne_zero, hn]
    cases hcs : StablePos.natChars n with
    | nil => exact absurd hcs hne
    | cons c cs => rfl

/-- Parsing the decimal characters of a nonzero natural yields it. -/
theorem pyFloatParse_natChars {n : Nat} (hn : n ≠ 0) :
    StablePos.pyFloatParse (StablePos.natChars n) = some (n : ℚ) := by
  obtain ⟨htake, hdrop, hempty⟩ := parse_natChars_core n hn
  have hsign : StablePos.signSplit (StablePos.natChars n)
      = (1, StablePos.natChars n) := by
    have hne : StablePos.natChars n ≠ [] := by
      intro h
      rw [h] at hempty
      exact absurd hempty (by decide)
    obtain ⟨c, cs, hcons⟩ := List.exists_cons_of_ne_nil hne
    have hcd : c.isDigit = true := natChars_all_digit c (by
      rw [hcons]
      exact List.mem_cons_self c cs)
    rw [hcons, signSplit_digit cs hcd]
  simp only [StablePos.pyFloatParse, hsign, htake, hdrop, hempty]
  rw [digitsVal_natChars]
  simp

/-- Parsing `"%d" % z` back with the float model recovers `z`. -/
theorem pyFloatParse_pyFormatD (z : Int) :
    StablePos.pyFloatParse (StablePos.pyFormatD z) = some (z : ℚ) := by
  rcases lt_trichotomy z 0 with hneg | rfl | hpos
  · have hn : z.natAbs ≠ 0 := by
      simp [Int.natAbs_eq_zero]
      exact hneg.ne
    obtain ⟨htake, hdrop, hempty⟩ := parse_natChars_core z.natAbs hn
    rw [StablePos.pyFormatD, if_pos hneg]
    have hsign : StablePos.signSplit ('-' :: StablePos.natChars z.natAbs)
        = (-1, StablePos.natChars z.natAbs) := by
      simp [StablePos.signSplit]
    simp only [StablePos.pyFloatParse, hsign, htake, hdrop, hempty]
    rw [digitsVal_natChars]
    have habs : ((z.natAbs : ℚ)) = -(z : ℚ) := by
      rw [Int.cast_natAbs, Int.cast_abs]
      exact abs_of_neg (by exact_mod_cast hneg)
    rw [habs]
    norm_num
  · rw [StablePos.pyFormatD, if_neg (by norm_num), if_pos rfl]
    have hsign : StablePos.signSplit ['0'] = (1, ['0']) :=
      signSplit_digit [] (by decide)
    have hdig : '0'.isDigit = true := by decide
    simp only [StablePos.pyFloatParse, hsign, hdig, List.takeWhile,
      List.dropWhile]
    norm_num [StablePos.digitsVal, StablePos.digitVal, List.foldl]
    decide
  · have hn : z.natAbs ≠ 0 := by
      simp [Int.natAbs_eq_zero]
      exact hpos.ne'
    rw [StablePos.pyFormatD, if_neg (by omega), if_neg (by omega),
        pyFloatParse_natChars hn]
    have habs : ((z.natAbs : ℚ)) = (z : ℚ) := by
      rw [Int.cast_natAbs, Int.cast_abs]
      exact abs_of_nonneg (by exact_mod_cast hpos.le)
    rw [habs]

/-- No character of `"%d" % z` is a comma. -/
theorem pyFormatD_ne_comma (z : Int) :
    ∀ c ∈ StablePos.pyFormatD z, c ≠ ',' := by
  intro c hc
  rw [StablePos.pyFormatD] at hc
  split at hc
  · rcases List.mem_cons.1 hc with rfl | hc'
    · decide
    · exact natChars_ne_comma c hc'
  · split at hc
    · rcases List.mem_cons.1 hc with rfl | hc'
      · decide
      · simp at hc'
    · exact natChars_ne_comma c hc

/-- `splitComma` never yields the empty piece list. -/
theorem splitComma_ne_nil (l : List Char) : StablePos.splitComma l ≠ [] := by
  cases l with
  | nil => simp [StablePos.splitComma]
  | cons c rest =>
    by_cases h : c = ',' <;> simp [StablePos.splitComma, h]

/-- A comma-free string splits into the single piece it is. -/
theorem splitComma_no_comma {xs : List Char} (h : ∀ c ∈ xs, c ≠ ',') :
    StablePos.splitComma xs = [xs] := by
  induction xs with
  | nil => rfl
  | cons c rest ih =>
    have hc : c ≠ ',' := h c (List.mem_cons_self _ _)
    have hr := ih fun d hd => h d (List.mem_cons_of_mem _ hd)
    simp [StablePos.splitComma, hc, hr]

/-- Splitting a comma-free prefix followed by a comma peels off the
prefix as one piece. -/
theorem splitComma_append {xs : List Char} (ys : List Char)
    (h : ∀ c ∈ xs, c ≠ ',') :
    StablePos.splitComma (xs ++ ',' :: ys) = xs :: StablePos.splitComma ys := by
  induction xs with
  | nil => simp [StablePos.splitComma]
  | cons c rest ih =>
    have hc : c ≠ ',' := h c (List.mem_cons_self _ _)
    have hr := ih fun d hd => h d (List.mem_cons_of_mem _ hd)
    simp [StablePos.splitComma, hc, hr]

/-- The saved `"%d,%d,%d"` string splits into the three formatted
numbers. -/
theorem splitComma_save (a b c : Int) :
    StablePos.splitComma (StablePos.save_height_pos a b c)
      = [StablePos.pyFormatD a, StablePos.pyFormatD b,
         StablePos.pyFormatD c] := by
  rw [StablePos.save_height_pos,
      splitComma_append _ (pyFormatD_ne_comma a),
      splitComma_append _ (pyFormatD_ne_comma b),
      splitComma_no_comma (pyFormatD_ne_comma c)]

/-- Tuple unpacking fails exactly when the list is not three parsed
values. -/
theorem unpack3_none_iff (L : List (Option ℚ)) :
    StablePos.unpack3 L = none
      ↔ ¬ (L.length = 3 ∧ ∀ o ∈ L, o.isSome) := by
  rcases L with _ | ⟨o1, _ | ⟨o2, _ | ⟨o3, _ | ⟨o4, t⟩⟩⟩⟩
  · simp [StablePos.unpack3]
  · cases o1 <;> simp [StablePos.unpack3]
  · cases o1 <;> cases o2 <;> simp [StablePos.unpack3]
  · cases o1 <;> cases o2 <;> cases o3 <;> simp [StablePos.unpack3]
  · cases o1 <;> cases o2 <;> cases o3 <;> cases o4 <;>
      simp [StablePos.unpack3]

/-- C10: the probe stable positions round-trip: the config string written
by `save_state` with `"%d,%d,%d"` parses back by `load_config_stable`
into the same integer triple (as floats), and `load_config_stable` fails
with a config error exactly on the strings that are not three
comma-separated numbers. -/
theorem stable_position_roundtrip :
    (∀ a b c : Int,
      StablePos.load_config_stable (StablePos.save_height_pos a b c)
        = some ((a : ℚ), (b : ℚ), (c : ℚ)))
    ∧ ∀ s : List Char,
        StablePos.load_config_stable s = none
          ↔ ¬ ((StablePos.splitComma s).length = 3
               ∧ ∀ part ∈ StablePos.splitComma s,
                   (StablePos.pyFloatParse part).isSome) := by
  constructor
  · intro a b c
    rw [StablePos.load_config_stable, splitComma_save, List.map_cons,
        List.map_cons, List.map_cons, List.map_nil,
        pyFloatParse_pyFormatD a, pyFloatParse_pyFormatD b,
        pyFloatParse_pyFormatD c]
    rfl
  · intro s
    rw [StablePos.load_config_stable, unpack3_none_iff]
    simp

/-- Witness for C10 at a concrete stable position and a concrete bad
string: `12,-3,0` round-trips, and the two-field string `1,2` is
rejected. -/
theorem stable_position_roundtrip_witness :
    StablePos.load_config_stable
        (StablePos.save_height_pos 12 (-3) 0) = some (12, -3, 0)
    ∧ (StablePos.load_config_stable [.ofNat 49, ',', .ofNat 50] = none
        ↔ ¬ ((StablePos.splitComma [.ofNat 49, ',', .ofNat 50]).length = 3
             ∧ ∀ part ∈ StablePos.splitComma [.ofNat 49, ',', .ofNat 50],
                 (StablePos.pyFloatParse part).isSome)) := by
  constructor
  · have h := stable_position_roundtrip.1 12 (-3) 0
    norm_num at h
    exact h
  · exact stable_position_roundtrip.2 _
